import Mathlib

/-!
# Verification of the Pathways Streamlit UI core

Shallow embedding of the tool-calling core of the `pathways-streamlit-ui`
repository:

* `src/app.py` — the transcript reconstructor (`reconstruct_llm_messages`),
  and the module-level streaming round loop (streaming accumulation of
  tool-call deltas, finalization in ascending index order, tool execution,
  and capture of the per-turn LLM message sequence `_llm_sequence`);
* `src/mcp_client.py` — the synchronous `MCPClient` facade
  (`call_tool`, `_thread_main` / `_run_session` readiness signalling).

Machine integers do not occur on the verified paths; strings are modelled
as Lean `String`, Python dicts keyed by `int` as insertion-ordered
association lists, Python exceptions as `Except`, and the opaque external
collaborators (OpenAI streaming transport, `json.loads`, the remote MCP
session) as explicit parameters.
-/

namespace Pathways

/-! ## OpenAI-format messages (the wire data model of `app.py`)

An entry of `llm_messages` / `turn_llm_sequence` in `app.py` is one of:
a system message, a user message, a final assistant message
(`{"role": "assistant", "content": text}`), an assistant message carrying
tool calls (`content` possibly `None`), or a tool-result message
(`{"role": "tool", "tool_call_id": ..., "content": ...}`). -/

/-- The `function` part of a raw tool call, `app.py` lines 522-525. -/
structure RawFn where
  name : String
  arguments : String
deriving DecidableEq, Repr

/-- One element of `raw_tc_list` (`app.py` lines 518-528):
`\x7b"id": ..., "type": "function", "function": \x7b...\x7d\x7d`. -/
structure RawTC where
  id : String
  function : RawFn
deriving DecidableEq, Repr

/-- An OpenAI-format chat message as built by `app.py`. -/
inductive Msg where
  | system (content : String)
  | user (content : String)
  | assistant (content : String)
  | assistantCalls (content : Option String) (tool_calls : List RawTC)
  | tool (tool_call_id : String) (content : String)
deriving DecidableEq, Repr

/-! ## Streaming accumulation (`app.py` lines 481-513)

The OpenAI stream yields chunks; a chunk with no choices is skipped
(`if not chunk.choices: continue`).  A delta may carry a text fragment
and/or a list of tool-call deltas, each tagged with a positional `index`.
Python truthiness (`if delta.content:`, `if tc_delta.id:` …) treats a
missing field and an empty string alike, so absent fields are modelled as
`""`. -/

/-- One tool-call delta (`tc_delta` in `app.py`): positional index plus
optional id / name fragment / arguments fragment (absent ≙ `""`). -/
structure TCDelta where
  index : Nat
  id : String
  name : String
  arguments : String
deriving DecidableEq, Repr

/-- The `chunk.choices[0].delta` of one streamed chunk. -/
structure Delta where
  content : String
  tool_calls : List TCDelta
deriving DecidableEq, Repr

/-- One streamed chunk: `none` models `chunk.choices == []`. -/
abbrev Chunk : Type := Option Delta

/-- The per-index accumulator `accumulated_tcs[idx]`
(`\x7b"id": "", "name": "", "arguments": ""\x7d`, `app.py` line 501). -/
structure AccTC where
  id : String
  name : String
  arguments : String
deriving DecidableEq, Repr

/-- The empty accumulator created on first sight of an index. -/
def AccTC.empty : AccTC := ⟨"", "", ""⟩

/-- The dict `accumulated_tcs : dict[int, dict]` as an insertion-ordered
association list (Python dicts preserve insertion order). -/
abbrev TCMap : Type := List (Nat × AccTC)

/-- Dict lookup `accumulated_tcs.get(i)`. -/
def tcsFind : TCMap → Nat → Option AccTC
  | [], _ => none
  | (j, t) :: rest, i => if j = i then some t else tcsFind rest i

/-- In-place update of the entry at key `i` (Python mutates the inner
dict; keys created by `applyTCDelta` are unique, so at most one entry is
touched). -/
def tcsUpdate : TCMap → Nat → (AccTC → AccTC) → TCMap
  | [], _, _ => []
  | (j, t) :: rest, i, f =>
      if j = i then (j, f t) :: rest else (j, t) :: tcsUpdate rest i f

/-- Field updates applied to one accumulator by one delta
(`app.py` lines 502-509): the id is *replaced* when a non-empty id
arrives, while name and arguments fragments are *appended*. -/
def AccTC.applyDelta (t : AccTC) (d : TCDelta) : AccTC :=
  let t := if d.id ≠ "" then { t with id := d.id } else t
  let t := if d.name ≠ "" then { t with name := t.name ++ d.name } else t
  if d.arguments ≠ "" then { t with arguments := t.arguments ++ d.arguments } else t

/-- Processing of one `tc_delta` (`app.py` lines 498-509): create the
entry on first sight of the index, then apply the field updates. -/
def applyTCDelta (acc : TCMap) (d : TCDelta) : TCMap :=
  let acc :=
    if (tcsFind acc d.index).isNone then acc ++ [(d.index, AccTC.empty)] else acc
  tcsUpdate acc d.index (fun t => t.applyDelta d)

/-- Processing of one streamed chunk (`app.py` lines 485-509): append the
text fragment to the answer buffer and fold the tool-call deltas into the
accumulator map. -/
def processChunk (st : String × TCMap) (c : Chunk) : String × TCMap :=
  match c with
  | none => st
  | some delta =>
      let text := if delta.content ≠ "" then st.1 ++ delta.content else st.1
      (text, delta.tool_calls.foldl applyTCDelta st.2)

/-- The whole streaming phase of one round: fold every chunk, starting
from `accumulated_text = ""` and `accumulated_tcs = \x7b\x7d`. -/
def streamFold (chunks : List Chunk) : String × TCMap :=
  chunks.foldl processChunk ("", [])

/-! ## `json.dumps(\x7b"error": str(exc)\x7d)`

Both `mcp_client.call_tool` (line 156) and the round loop's tool-failure
handler (`app.py` line 552) serialize a caught exception as
`json.dumps(\x7b"error": str(exc)\x7d)`.  We embed CPython's `json.dumps`
for this one-key object under its default options (`ensure_ascii=True`,
default separators), including the string-escaping rules. -/

/-- Lowercase hexadecimal digit. -/
def hexDigit (n : Nat) : Char :=
  if n < 10 then Char.ofNat (48 + n) else Char.ofNat (87 + n)

/-- Four-digit lowercase hex, as in a JSON `\u` escape. -/
def hex4 (n : Nat) : String :=
  String.mk [hexDigit (n / 4096 % 16), hexDigit (n / 256 % 16),
             hexDigit (n / 16 % 16), hexDigit (n % 16)]

/-- CPython `json` escaping of one character under `ensure_ascii=True`:
two-character escapes for the usual control characters, `\u00xx` for the
remaining C0 controls, `\uxxxx` (with surrogate pairs beyond the BMP) for
every non-ASCII character. -/
def jsonEscapeChar (c : Char) : String :=
  if c = '"' then "\\\""
  else if c = '\\' then "\\\\"
  else if c = '\n' then "\\n"
  else if c = '\r' then "\\r"
  else if c = '\t' then "\\t"
  else if c = Char.ofNat 8 then "\\b"
  else if c = Char.ofNat 12 then "\\f"
  else if c.toNat < 32 then "\\u" ++ hex4 c.toNat
  else if c.toNat < 127 then String.singleton c
  else if c.toNat < 65536 then "\\u" ++ hex4 c.toNat
  else
    let v := c.toNat - 65536
    "\\u" ++ hex4 (55296 + v / 1024) ++ "\\u" ++ hex4 (56320 + v % 1024)

/-- Python `json.dumps` of a `str` under default options. -/
def json_dumps_str (s : String) : String :=
  "\"" ++ String.join (s.data.map jsonEscapeChar) ++ "\""

/-- Python `json.dumps(\x7b"error": m\x7d)` under default options. -/
def json_dumps_error (m : String) : String :=
  "\x7b\"error\": " ++ json_dumps_str m ++ "\x7d"

/-! ## `MCPClient.call_tool` (`src/mcp_client.py` lines 138-156)

`call_tool` first checks `self._session is None or self._loop is None`
and raises `RuntimeError("MCP client is not initialised.")` if so —
*before* any coroutine is submitted to the background loop and before the
bounded `future.result(timeout=120)` wait.  Otherwise it submits `_call()`
and blocks on the future.  Everything the bounded wait can raise — the
remote call's own exception as well as the `TimeoutError` raised when the
120 s wait elapses — is caught by the blanket `except Exception` and
folded into the data channel as `json.dumps(\x7b"error": str(exc)\x7d)`.

The outcome of the awaited remote call is an oracle `remote`; `Args` (the
parsed-JSON tool arguments, opaque to all of this code) is a type
parameter. -/

/-- What the bounded wait on the dispatched future can produce:
a successful `session.call_tool` result (a list of content items, those
with a `text` attribute modelled as `some text`), an exception raised by
the remote call, or the elapse of the 120 s wait
(`concurrent.futures.TimeoutError`, whose `str()` is `""`). -/
inductive RemoteOutcome where
  | result (content : List (Option String))
  | raised (msg : String)
  | timedOut
deriving DecidableEq

/-- The synchronous MCP facade: the two nullable fields `_session` /
`_loop` (their payloads are irrelevant to `call_tool`'s control flow) and
the oracle giving the behaviour of the dispatched remote call. -/
structure MCPClient (Args : Type) where
  session : Option Unit
  loop : Option Unit
  remote : String → Args → RemoteOutcome

/-- Python `str(exc)` for the exception raised by `future.result(timeout=120)`:
the remote exception's own message, or `str(concurrent.futures.TimeoutError())
= ""` on timeout. -/
def RemoteOutcome.excMessage : RemoteOutcome → String
  | .raised m => m
  | _ => ""

/-- Embedding of `MCPClient.call_tool` (`mcp_client.py` lines 138-156).  `Except.error`
models an exception propagating to the caller; `Except.ok` a returned
string. -/
def MCPClient.call_tool {Args : Type} (c : MCPClient Args)
    (name : String) (arguments : Args) : Except String String :=
  if c.session = none ∨ c.loop = none then
    Except.error "MCP client is not initialised."
  else
    match c.remote name arguments with
    | .result content =>
        let parts := content.filterMap id
        Except.ok (if parts = [] then "" else String.intercalate "\n" parts)
    | .raised m => Except.ok (json_dumps_error m)
    | .timedOut => Except.ok (json_dumps_error RemoteOutcome.timedOut.excMessage)

/-! ## The round loop (`src/app.py` lines 450-594)

The loop `for _round in range(10)` drives one user turn: stream one model
response, and either execute the accumulated tool calls and `continue`,
or record the final answer and `break`.  External collaborators are an
explicit environment: the OpenAI streaming transport
(`openai_client.chat.completions.create`, whose raising is `Except.error`),
`json.loads` (an opaque parser into the opaque argument type `Args`,
`none` modelling `json.JSONDecodeError`), and the tool facade
`mcp.call_tool` (which may raise, e.g. the not-initialised `RuntimeError`;
the loop's own `except Exception` catches anything it raises). -/

/-- A completed tool call as recorded in `collected_tool_calls`
(`tc_record`, `app.py` lines 554-560). -/
structure ToolRecord (Args : Type) where
  call_id : String
  name : String
  arguments : Args
  result : String
  is_error : Bool

/-- The external collaborators of the round loop. -/
structure Env (Args : Type) where
  transport : List Msg → Except String (List Chunk)
  jsonLoads : String → Option Args
  emptyArgs : Args
  callTool : String → Args → Except String String

/-- Ordering of accumulated entries by their positional index. -/
def keyLE (a b : Nat × AccTC) : Prop := a.1 ≤ b.1

instance : DecidableRel keyLE := fun a b => Nat.decLe a.1 b.1

instance : IsTotal (Nat × AccTC) keyLE := ⟨fun a b => Nat.le_total a.1 b.1⟩

instance : IsTrans (Nat × AccTC) keyLE := ⟨fun _ _ _ => Nat.le_trans⟩

/-- The iteration `for i in sorted(accumulated_tcs.keys()): tc = accumulated_tcs[i]`
(`app.py` lines 527 and 537): since the keys of `accumulated_tcs` are
unique, iterating the sorted keys and indexing the dict is iterating the
entries sorted by key. -/
def finalized (tcs : TCMap) : TCMap :=
  List.insertionSort keyLE tcs

/-- The list `raw_tc_list` (`app.py` lines 518-528): the finalized calls, in
ascending index order, in OpenAI raw tool-call format. -/
def raw_tc_list (tcs : TCMap) : List RawTC :=
  (finalized tcs).map (fun e => ⟨e.2.id, ⟨e.2.name, e.2.arguments⟩⟩)

/-- The message `round_asst_msg` (`app.py` lines 529-533): `content` is
`accumulated_text or None` — Python truthiness maps `""` to `None`. -/
def round_asst_msg (text : String) (tcs : TCMap) : Msg :=
  Msg.assistantCalls (if text = "" then none else some text) (raw_tc_list tcs)

/-- Argument parsing for one finalized call (`app.py` lines 540-543):
`json.loads(tc["arguments"]) if tc["arguments"].strip() else \x7b\x7d`,
with `json.JSONDecodeError` mapped to `\x7b\x7d`. -/
def parseArgs {Args : Type} (env : Env Args) (buffer : String) : Args :=
  if buffer.trim = "" then env.emptyArgs
  else
    match env.jsonLoads buffer with
    | some a => a
    | none => env.emptyArgs

/-- Execution of one finalized call (`app.py` lines 537-562): parse the
argument buffer, invoke the facade, and on any raised exception record
`json.dumps(\x7b"error": str(exc)\x7d)` with the error flag set. -/
def runOneCall {Args : Type} (env : Env Args) (e : Nat × AccTC) : ToolRecord Args :=
  let tc := e.2
  let tool_args := parseArgs env tc.arguments
  match env.callTool tc.name tool_args with
  | Except.ok result_text =>
      ⟨tc.id, tc.name, tool_args, result_text, false⟩
  | Except.error exc =>
      ⟨tc.id, tc.name, tool_args, json_dumps_error exc, true⟩

/-- The tool records produced by one round, in the execution order of the
`for i in sorted(accumulated_tcs.keys())` loop (`app.py` line 537). -/
def roundRecords {Args : Type} (env : Env Args) (tcs : TCMap) : List (ToolRecord Args) :=
  (finalized tcs).map (runOneCall env)

/-- The `tool_result_msg`s appended by one round (`app.py` lines 565-571),
in the same order as the executions that produced them. -/
def roundToolMsgs {Args : Type} (env : Env Args) (tcs : TCMap) : List Msg :=
  (roundRecords env tcs).map (fun r => Msg.tool r.call_id r.result)

/-- The mutable state of one turn (`app.py` lines 445-461 and the loop
body).  `streamCalls` counts invocations of the streaming transport
(`openai_client.chat.completions.create`). -/
structure LoopState (Args : Type) where
  llm_messages : List Msg
  turn_llm_sequence : List Msg
  collected_tool_calls : List (ToolRecord Args)
  final_response_text : String
  streamCalls : Nat

/-- One iteration of `for _round in range(10)` (`app.py` lines 463-580).
The boolean is `true` when the body ends in `continue` (tool calls were
executed) and `false` when it ends in `break` (transport failure, or a
response with no tool calls). -/
def runRound {Args : Type} (env : Env Args) (s : LoopState Args) :
    LoopState Args × Bool :=
  match env.transport s.llm_messages with
  | Except.error _ =>
      ({ s with streamCalls := s.streamCalls + 1 }, false)
  | Except.ok chunks =>
      let streamed := streamFold chunks
      let accumulated_text := streamed.1
      let accumulated_tcs := streamed.2
      if accumulated_tcs.isEmpty then
        ({ s with
            streamCalls := s.streamCalls + 1
            final_response_text := accumulated_text
            turn_llm_sequence :=
              s.turn_llm_sequence ++ [Msg.assistant accumulated_text] }, false)
      else
        let asst := round_asst_msg accumulated_text accumulated_tcs
        let toolMsgs := roundToolMsgs env accumulated_tcs
        ({ s with
            streamCalls := s.streamCalls + 1
            llm_messages := s.llm_messages ++ asst :: toolMsgs
            turn_llm_sequence := s.turn_llm_sequence ++ asst :: toolMsgs
            collected_tool_calls :=
              s.collected_tool_calls ++ roundRecords env accumulated_tcs }, true)

/-- The `range(10)` loop, by fuel: stop when the fuel is exhausted or the
round body hit `break`. -/
def runLoopAux {Args : Type} (env : Env Args) : Nat → LoopState Args → LoopState Args
  | 0, s => s
  | fuel + 1, s =>
      let step := runRound env s
      if step.2 then runLoopAux env fuel step.1 else step.1

/-- The state at the top of the loop (`app.py` lines 458-461). -/
def initState (Args : Type) (msgs : List Msg) : LoopState Args :=
  { llm_messages := msgs
    turn_llm_sequence := []
    collected_tool_calls := []
    final_response_text := ""
    streamCalls := 0 }

/-- One whole turn: the `for _round in range(10)` loop run from the
initial state. -/
def runTurn {Args : Type} (env : Env Args) (msgs : List Msg) : LoopState Args :=
  runLoopAux env 10 (initState Args msgs)

/-! ## Conversation state and the transcript reconstructor
(`src/app.py` lines 104-196)

A display message is a `user` entry or an `assistant` entry; an assistant
entry carries the rendered content, the `tool_calls` records, and the
optional `_llm_sequence` / `_raw_tool_calls` keys.  Python truthiness on
`dm.get("_llm_sequence")` / `dm.get("_raw_tool_calls")` means a missing
key and an empty list behave alike, so only `some (x :: xs)` takes the
corresponding branch. -/

/-- One entry of `conv["display_messages"]`. -/
inductive DisplayMsg (Args : Type) where
  | user (content : String)
  | assistant (content : String) (tool_calls : List (ToolRecord Args))
      (llm_sequence : Option (List Msg)) (raw_tool_calls : Option (List RawTC))

/-- A conversation record (`get_or_create_conversation`, `app.py`
lines 114-122; `created_at` is modelled as an opaque tick). -/
structure Conv (Args : Type) where
  id : String
  title : String
  created_at : Nat
  display_messages : List (DisplayMsg Args)

/-- The body of the `for dm in conv["display_messages"]` loop of
`reconstruct_llm_messages` (`app.py` lines 175-194), as a function from
the `messages` list built so far to its extension. -/
def reconStep {Args : Type} (messages : List Msg) (dm : DisplayMsg Args) : List Msg :=
  match dm with
  | .user content => messages ++ [Msg.user content]
  | .assistant content tool_calls llm_sequence raw_tool_calls =>
      match llm_sequence with
      | some (m :: ms) =>
          -- Accurate replay: includes intermediate tool-calling rounds
          messages ++ (m :: ms)
      | _ =>
          -- Fallback for messages saved before the `_llm_sequence` fix
          let asst_msg : Msg :=
            match raw_tool_calls with
            | some (r :: rs) =>
                Msg.assistantCalls (if content = "" then none else some content)
                  (r :: rs)
            | _ => Msg.assistant content
          (messages ++ [asst_msg]) ++
            tool_calls.map (fun tc => Msg.tool tc.call_id tc.result)

/-- Embedding of `reconstruct_llm_messages` (`app.py` lines 165-196), parameterized by
the system-prompt text that `load_system_prompt()` returns. -/
def reconstruct_llm_messages {Args : Type} (system_prompt : String)
    (conv : Conv Args) (new_user_prompt : String) : List Msg :=
  let messages : List Msg := [Msg.system system_prompt]
  let messages := conv.display_messages.foldl reconStep messages
  messages ++ [Msg.user new_user_prompt]

/-- Specification-side expansion of one display entry (§4.4 of the spec):
a user entry becomes one user message; an assistant entry with a captured
TurnSequence is expanded by emitting every RoundMessage verbatim, in
order; an assistant entry lacking one falls back to one assistant message
(carrying its raw tool-call records, if any) followed by one tool-result
message per recorded call. -/
def expandDisplayMsg {Args : Type} : DisplayMsg Args → List Msg
  | .user content => [Msg.user content]
  | .assistant content tool_calls llm_sequence raw_tool_calls =>
      match llm_sequence with
      | some (m :: ms) => m :: ms
      | _ =>
          (match raw_tool_calls with
           | some (r :: rs) =>
               Msg.assistantCalls (if content = "" then none else some content)
                 (r :: rs)
           | _ => Msg.assistant content)
            :: tool_calls.map (fun tc => Msg.tool tc.call_id tc.result)

/-- The heap visible to `reconstruct_llm_messages`: the conversation
record it was handed and the `messages` list it is building.  Each
statement of the Python function is translated as a transformation of
this state, so that writes to `conv` — were there any — would show up. -/
structure ReconState (Args : Type) where
  conv : Conv Args
  messages : List Msg

/-- Stateful translation of `reconstruct_llm_messages`: line 174
initialises `messages`, the loop body only ever reassigns `messages`
(`append` / `extend`), and line 195 appends the new user message. -/
def reconstruct_run {Args : Type} (system_prompt : String)
    (conv : Conv Args) (new_user_prompt : String) : ReconState Args :=
  let st : ReconState Args := ⟨conv, [Msg.system system_prompt]⟩
  let st := conv.display_messages.foldl
    (fun st dm => { st with messages := reconStep st.messages dm }) st
  { st with messages := st.messages ++ [Msg.user new_user_prompt] }

/-! ## Session worker readiness (`src/mcp_client.py` lines 85-125)

`_thread_main` runs `_run_session` on the dedicated loop.  `_run_session`
either raises before reaching `self._initialized.set()` (handshake
failure), or signals readiness and then either waits cleanly on the stop
event or raises later.  The `except Exception` handler in `_thread_main`
records the exception into `_init_error` and signals the event **only
if the event is not already set**.  The point in `_run_session` at which
the exception (if any) occurs is the environment's choice, modelled as a
script. -/

/-- Observable state of the worker: the `threading.Event`
`_initialized`, the number of `.set()` calls performed on it, the stored
`_init_error`, and whether `_session` was published. -/
structure WorkerState where
  initialized : Bool
  signal_count : Nat
  init_error : Option String
  session_set : Bool
deriving DecidableEq, Repr

/-- The state at `MCPClient.__init__` time: event unset, no error. -/
def WorkerState.fresh : WorkerState := ⟨false, 0, none, false⟩

/-- How one execution of `_run_session` behaves: raise before the
readiness signal, reach the signal and stop cleanly, or reach the signal
and raise afterwards. -/
inductive SessionScript where
  | failBeforeReady (msg : String)
  | readyClean
  | readyThenRaise (msg : String)

/-- The call `self._initialized.set()` (also counts the signal, to state
"signaled exactly once"). -/
def signalReady (s : WorkerState) : WorkerState :=
  { s with initialized := true, signal_count := s.signal_count + 1 }

/-- Embedding of `_thread_main` (`mcp_client.py` lines 85-95) running `_run_session`
under the given script.  The `except Exception` handler is
`if not self._initialized.is_set(): self._init_error = exc;
self._initialized.set()`. -/
def thread_main (s : WorkerState) (script : SessionScript) : WorkerState :=
  match script with
  | .failBeforeReady m =>
      if s.initialized then s
      else signalReady { s with init_error := some m }
  | .readyClean =>
      signalReady { s with session_set := true }
  | .readyThenRaise m =>
      let s := signalReady { s with session_set := true }
      if s.initialized then s
      else signalReady { s with init_error := some m }

/-! ## Derived notions used by the statements -/

/-- Checker for the pairing invariant on a message sequence, written as a
small automaton: `pending` is the list of tool calls announced by the
most recent `assistant-with-calls` message whose results have not yet
been seen.  While `pending` is non-empty, the next message must be a
tool-result whose `tool_call_id` equals the id of the next pending call;
while `pending` is empty, a tool-result message is not allowed at all,
and an `assistant-with-calls` message loads its calls into `pending`. -/
def wellPairedAux : List RawTC → List Msg → Bool
  | [], [] => true
  | [], Msg.assistantCalls _ calls :: rest => wellPairedAux calls rest
  | [], Msg.tool _ _ :: _ => false
  | [], _ :: rest => wellPairedAux [] rest
  | c :: cs, Msg.tool tid _ :: rest => tid == c.id && wellPairedAux cs rest
  | _ :: _, _ => false

/-- A message sequence satisfies the pairing invariant: every
`assistant-with-calls` message is immediately followed by exactly as many
tool-result messages as it has calls, positionally matched by id. -/
def wellPaired (ms : List Msg) : Bool := wellPairedAux [] ms

/-- The tool-call deltas carried by one chunk. -/
def chunkDeltas : Chunk → List TCDelta
  | none => []
  | some d => d.tool_calls

/-- All tool-call deltas of a stream, in arrival order. -/
def allDeltas (chunks : List Chunk) : List TCDelta :=
  chunks.flatMap chunkDeltas

/-- The deltas of a stream addressed to positional index `i`, in arrival
order. -/
def deltasFor (chunks : List Chunk) (i : Nat) : List TCDelta :=
  (allDeltas chunks).filter (fun d => d.index == i)

/-- Concatenation of a list of strings, in order. -/
def concatAll : List String → String
  | [] => ""
  | s :: rest => s ++ concatAll rest

/-- The argument buffer an accumulator should hold after a list of
deltas has been folded into it: the buffer it started with (if the entry
already existed) extended by the concatenation of the arriving argument
fragments in order; no entry at all when none existed and no delta
arrived. -/
def expectedBuffer (start : Option AccTC) (ds : List TCDelta) : Option String :=
  match start with
  | some t => some (t.arguments ++ concatAll (ds.map TCDelta.arguments))
  | none =>
      if ds = [] then none
      else some (concatAll (ds.map TCDelta.arguments))

/-! ## Concrete inputs used by witnesses and counterexamples -/

/-- A ready client whose dispatched future always times out. -/
def timeoutClient : MCPClient Unit :=
  { session := some (), loop := some (), remote := fun _ _ => RemoteOutcome.timedOut }

/-- A client constructed but not yet initialised (`_session is None`). -/
def uninitClient : MCPClient Unit :=
  { session := none, loop := some (), remote := fun _ _ => RemoteOutcome.result [] }

/-- A ready client whose remote call always raises `"boom"`. -/
def raisingClient : MCPClient Unit :=
  { session := some (), loop := some (), remote := fun _ _ => RemoteOutcome.raised "boom" }

/-- A one-chunk stream announcing a single tool call at index 0. -/
def oneCallChunks : List Chunk :=
  [some ⟨"", [⟨0, "call_1", "get_countries", "\x7b\x7d"⟩]⟩]

/-- A transport that always answers with `oneCallChunks`. -/
def oneCallTransport : List Msg → Except String (List Chunk) :=
  fun _ => Except.ok oneCallChunks

/-- The round-loop environment for the `raisingClient`: every streamed
response requests one tool call, whose execution raises remotely. -/
def raisingEnv : Env Unit :=
  { transport := oneCallTransport
    jsonLoads := fun _ => some ()
    emptyArgs := ()
    callTool := raisingClient.call_tool }

/-- The spec's split-fragment example: the argument buffer of index 0
arrives as the three fragments `\x7b"a":`, `1,"b"`, `:2\x7d`. -/
def splitFragmentChunks : List Chunk :=
  [some ⟨"", [⟨0, "call_1", "f", "\x7b\"a\":"⟩]⟩,
   some ⟨"", [⟨0, "", "", "1,\"b\""⟩]⟩,
   some ⟨"", [⟨0, "", "", ":2\x7d"⟩]⟩]

/-- The same call arriving as a single fragment `\x7b"a":1,"b":2\x7d`. -/
def singleFragmentChunks : List Chunk :=
  [some ⟨"", [⟨0, "call_1", "f", "\x7b\"a\":1,\"b\":2\x7d"⟩]⟩]

/-! # Helper lemmas -/

theorem runRound_streamCalls {Args : Type} (env : Env Args) (s : LoopState Args) :
    ((runRound env s).1).streamCalls = s.streamCalls + 1 := by
  unfold runRound
  cases env.transport s.llm_messages with
  | error e => rfl
  | ok chunks => dsimp only; split <;> rfl

theorem runLoopAux_streamCalls_le {Args : Type} (env : Env Args)
    (fuel : Nat) (s : LoopState Args) :
    (runLoopAux env fuel s).streamCalls ≤ s.streamCalls + fuel := by
  induction fuel generalizing s with
  | zero => exact Nat.le_refl _
  | succ fuel ih =>
    unfold runLoopAux
    have hr := runRound_streamCalls env s
    dsimp only
    split
    · have h2 := ih (runRound env s).1
      omega
    · omega

/-! # Claim theorems -/

/-- Claim C2:  For every behaviour of the model transport — including one
that requests a further tool call in every round — the round loop
(`for _round in range(10)`, `app.py` line 463) invokes the streaming
transport at most 10 times and then exits with whatever partial state it
has; an 11th streaming round is never issued. -/
theorem round_loop_at_most_ten_rounds {Args : Type} (env : Env Args)
    (msgs : List Msg) :
    (runTurn env msgs).streamCalls ≤ 10 := by
  have h := runLoopAux_streamCalls_le env 10 (initState Args msgs)
  simpa [initState, runTurn] using h

/-- Claim C7:  The worker's readiness signal (`self._initialized.set()`) is
performed exactly once per client instance, for every behaviour of
`_run_session`: pending→ready (no error recorded) or pending→failed
(error recorded).  An exception raised after readiness was signaled does
not overwrite the init error, does not re-signal, and leaves the event
set, so waiting callers never deadlock. -/
theorem readiness_signaled_exactly_once (script : SessionScript) :
    (thread_main WorkerState.fresh script).signal_count = 1 ∧
    (thread_main WorkerState.fresh script).initialized = true ∧
    (thread_main WorkerState.fresh script).init_error =
      (match script with
       | SessionScript.failBeforeReady m => some m
       | _ => none) := by
  cases script <;> simp [thread_main, signalReady, WorkerState.fresh]

/-- Claim C9:  `call_tool` invoked before the session is ready
(`_session is None or _loop is None`, `mcp_client.py` line 140) raises
the not-initialised `RuntimeError` immediately; the result does not
depend on the remote-call oracle at all, because nothing is submitted to
the background loop and the bounded wait is never entered. -/
theorem call_tool_before_ready_not_initialized {Args : Type}
    (c : MCPClient Args) (name : String) (args : Args)
    (h : c.session = none ∨ c.loop = none) :
    c.call_tool name args = Except.error "MCP client is not initialised." ∧
    ∀ remote2 : String → Args → RemoteOutcome,
      MCPClient.call_tool { c with remote := remote2 } name args =
        c.call_tool name args := by
  constructor
  · unfold MCPClient.call_tool
    rw [if_pos h]
  · intro remote2
    unfold MCPClient.call_tool
    rw [if_pos h, if_pos h]

/-- Witness for C9: a concrete client with `_session is None`. -/
theorem call_tool_before_ready_witness :
    MCPClient.call_tool uninitClient "list_segmentations" () =
      Except.error "MCP client is not initialised." :=
  (call_tool_before_ready_not_initialized uninitClient "list_segmentations" ()
    (Or.inl rfl)).1

/-- Claim C4 counterexample:  The claim says the elapse of the bounded
120 s wait is signaled to the orchestrator as an error.  It is not: on a
ready client whose future times out, `call_tool` *returns* the JSON
error payload `json.dumps(\x7b"error": str(TimeoutError())\x7d)` =
`\x7b"error": ""\x7d` through the data channel (`Except.ok`), because
the blanket `except Exception` at `mcp_client.py` line 154 catches the
`TimeoutError` like any other failure. -/
theorem timeout_not_raised_counterexample :
    MCPClient.call_tool timeoutClient "get_segments" () =
      Except.ok "\x7b\"error\": \"\"\x7d" ∧
    (MCPClient.call_tool timeoutClient "get_segments" ()).isOk = true := by
  constructor <;> rfl

/-- Claim C4 amended:  When the bounded 120-unit wait on a dispatched
`callTool` future elapses, the `TimeoutError` is caught inside
`call_tool` and the call returns the JSON error payload string
`json.dumps(\x7b"error": "<message>"\x7d)` (with `str` of the timeout
exception as message, namely `""`) through the data channel, exactly as
for remote-tool failures; no error is raised to the orchestrator. -/
theorem timeout_folded_into_data_channel {Args : Type} (c : MCPClient Args)
    (name : String) (args : Args)
    (hs : c.session ≠ none) (hl : c.loop ≠ none)
    (ht : c.remote name args = RemoteOutcome.timedOut) :
    c.call_tool name args = Except.ok (json_dumps_error "") := by
  unfold MCPClient.call_tool
  rw [if_neg (by tauto), ht]
  rfl

/-- Witness for the amended C4 at the concrete timing-out client. -/
theorem timeout_folded_witness :
    MCPClient.call_tool timeoutClient "get_segments" () =
      Except.ok (json_dumps_error "") :=
  timeout_folded_into_data_channel timeoutClient "get_segments" ()
    (by simp [timeoutClient]) (by simp [timeoutClient]) rfl

theorem reconStep_eq_append_expand {Args : Type} (acc : List Msg)
    (dm : DisplayMsg Args) :
    reconStep acc dm = acc ++ expandDisplayMsg dm := by
  cases dm with
  | user content => rfl
  | assistant content tool_calls llm_sequence raw_tool_calls =>
    cases llm_sequence with
    | none =>
      cases raw_tool_calls with
      | none => simp [reconStep, expandDisplayMsg]
      | some rs => cases rs <;> simp [reconStep, expandDisplayMsg]
    | some seq =>
      cases seq with
      | nil =>
        cases raw_tool_calls with
        | none => simp [reconStep, expandDisplayMsg]
        | some rs => cases rs <;> simp [reconStep, expandDisplayMsg]
      | cons m ms => simp [reconStep, expandDisplayMsg]

theorem foldl_reconStep_eq_flatten {Args : Type} (dms : List (DisplayMsg Args))
    (acc : List Msg) :
    dms.foldl reconStep acc = acc ++ dms.flatMap expandDisplayMsg := by
  induction dms generalizing acc with
  | nil => simp
  | cons dm dms ih =>
    rw [List.foldl_cons, ih, reconStep_eq_append_expand]
    simp

/-- Claim C8:  Transcript reconstruction is deterministic and canonical:
`reconstruct_llm_messages` is a pure function of the system-prompt text,
the stored conversation and the new prompt, and its value is exactly one
leading system message, followed by the expansion of every display entry
in order — an assistant entry with a captured (non-empty) TurnSequence
expands to that sequence verbatim — with the new user message appended
last.  Two reconstructions of the same inputs both equal this canonical
form, hence are identical byte-for-byte. -/
theorem reconstruct_deterministic_canonical_form {Args : Type}
    (system_prompt : String) (conv : Conv Args) (new_user_prompt : String) :
    reconstruct_llm_messages system_prompt conv new_user_prompt =
      Msg.system system_prompt ::
        (conv.display_messages.flatMap expandDisplayMsg ++
          [Msg.user new_user_prompt]) := by
  unfold reconstruct_llm_messages
  dsimp only
  rw [foldl_reconStep_eq_flatten]
  simp

/-- Claim C10:  Transcript reconstruction is read-only with respect to its
inputs: the stateful translation of `reconstruct_llm_messages`, which
threads the conversation record through every statement of the function,
returns the conversation unchanged, and its freshly built message list
is the one the pure function returns. -/
theorem reconstruct_read_only {Args : Type} (system_prompt : String)
    (conv : Conv Args) (new_user_prompt : String) :
    (reconstruct_run system_prompt conv new_user_prompt).conv = conv ∧
    (reconstruct_run system_prompt conv new_user_prompt).messages =
      reconstruct_llm_messages system_prompt conv new_user_prompt := by
  have key : ∀ (dms : List (DisplayMsg Args)) (st : ReconState Args),
      (dms.foldl (fun st dm => { st with messages := reconStep st.messages dm }) st) =
        ⟨st.conv, dms.foldl reconStep st.messages⟩ := by
    intro dms
    induction dms with
    | nil => intro st; rfl
    | cons dm dms ih => intro st; rw [List.foldl_cons, ih]; rfl
  unfold reconstruct_run reconstruct_llm_messages
  dsimp only
  rw [key]
  exact ⟨rfl, rfl⟩

theorem runOneCall_call_id {Args : Type} (env : Env Args) (e : Nat × AccTC) :
    (runOneCall env e).call_id = e.2.id := by
  unfold runOneCall
  dsimp only
  split <;> rfl

theorem runOneCall_name {Args : Type} (env : Env Args) (e : Nat × AccTC) :
    (runOneCall env e).name = e.2.name := by
  unfold runOneCall
  dsimp only
  split <;> rfl

/-- Claim C3:  Within one round, the finalized calls are placed in the
assistant-with-calls message in ascending positional-index order, are
executed through the call facade in that same order, and their
tool-result messages are appended in that same order: the finalized
entry list has ascending indices, is a permutation of the accumulated
map (no call dropped or duplicated), and the assistant message's call
list, the execution records, and the emitted tool messages all traverse
it positionally in step (matching ids and names). -/
theorem tool_calls_processed_in_ascending_index_order {Args : Type}
    (env : Env Args) (tcs : TCMap) :
    List.Sorted (· ≤ ·) ((finalized tcs).map Prod.fst) ∧
    (finalized tcs).Perm tcs ∧
    (raw_tc_list tcs).map RawTC.id =
      (roundRecords env tcs).map ToolRecord.call_id ∧
    (raw_tc_list tcs).map (fun r => r.function.name) =
      (roundRecords env tcs).map ToolRecord.name ∧
    roundToolMsgs env tcs =
      (roundRecords env tcs).map (fun r => Msg.tool r.call_id r.result) := by
  refine ⟨?_, List.perm_insertionSort keyLE tcs, ?_, ?_, rfl⟩
  · have h := List.sorted_insertionSort keyLE tcs
    simpa [List.Sorted, List.pairwise_map, keyLE, finalized] using h
  · unfold raw_tc_list roundRecords
    rw [List.map_map, List.map_map]
    refine List.map_congr_left ?_
    intro e _
    simp [Function.comp, runOneCall_call_id]
  · unfold raw_tc_list roundRecords
    rw [List.map_map, List.map_map]
    refine List.map_congr_left ?_
    intro e _
    simp [Function.comp, runOneCall_name]

theorem wellPairedAux_append (ys : List Msg) (hys : wellPairedAux [] ys = true) :
    ∀ (xs : List Msg) (p : List RawTC), wellPairedAux p xs = true →
      wellPairedAux p (xs ++ ys) = true := by
  intro xs
  induction xs with
  | nil =>
    intro p hp
    cases p with
    | nil => simpa using hys
    | cons c cs => simp [wellPairedAux] at hp
  | cons x xs ih =>
    intro p hp
    cases p with
    | nil =>
      cases x with
      | system c =>
        rw [List.cons_append]
        simp only [wellPairedAux] at hp ⊢
        exact ih [] hp
      | user c =>
        rw [List.cons_append]
        simp only [wellPairedAux] at hp ⊢
        exact ih [] hp
      | assistant c =>
        rw [List.cons_append]
        simp only [wellPairedAux] at hp ⊢
        exact ih [] hp
      | assistantCalls c calls =>
        rw [List.cons_append]
        simp only [wellPairedAux] at hp ⊢
        exact ih calls hp
      | tool tid c =>
        simp [wellPairedAux] at hp
    | cons c cs =>
      cases x with
      | tool tid content =>
        rw [List.cons_append]
        simp only [wellPairedAux, Bool.and_eq_true] at hp ⊢
        exact ⟨hp.1, ih cs hp.2⟩
      | system c2 => simp [wellPairedAux] at hp
      | user c2 => simp [wellPairedAux] at hp
      | assistant c2 => simp [wellPairedAux] at hp
      | assistantCalls c2 calls => simp [wellPairedAux] at hp

theorem wellPairedAux_block {Args : Type} (env : Env Args) (es : TCMap) :
    wellPairedAux
      (es.map (fun e => (⟨e.2.id, ⟨e.2.name, e.2.arguments⟩⟩ : RawTC)))
      (es.map (fun e =>
        Msg.tool (runOneCall env e).call_id (runOneCall env e).result)) = true := by
  induction es with
  | nil => rfl
  | cons e es ih =>
    simp only [List.map_cons, wellPairedAux, Bool.and_eq_true]
    refine ⟨?_, ih⟩
    rw [runOneCall_call_id]
    simp

theorem runRound_turn_sequence_wellPaired {Args : Type} (env : Env Args)
    (s : LoopState Args) (h : wellPaired s.turn_llm_sequence = true) :
    wellPaired ((runRound env s).1).turn_llm_sequence = true := by
  unfold runRound
  cases htr : env.transport s.llm_messages with
  | error e => exact h
  | ok chunks =>
    dsimp only
    split
    · exact wellPairedAux_append [Msg.assistant (streamFold chunks).1] rfl _ _ h
    · apply wellPairedAux_append _ ?_ _ _ h
      show wellPairedAux []
        (round_asst_msg (streamFold chunks).1 (streamFold chunks).2 ::
          roundToolMsgs env (streamFold chunks).2) = true
      unfold round_asst_msg
      simp only [wellPairedAux]
      unfold raw_tc_list roundToolMsgs roundRecords
      rw [List.map_map]
      exact wellPairedAux_block env _

theorem runLoopAux_turn_sequence_wellPaired {Args : Type} (env : Env Args)
    (fuel : Nat) (s : LoopState Args)
    (h : wellPaired s.turn_llm_sequence = true) :
    wellPaired (runLoopAux env fuel s).turn_llm_sequence = true := by
  induction fuel generalizing s with
  | zero => exact h
  | succ fuel ih =>
    unfold runLoopAux
    dsimp only
    split
    · exact ih _ (runRound_turn_sequence_wellPaired env s h)
    · exact runRound_turn_sequence_wellPaired env s h

/-- Claim C1:  For every TurnSequence produced by the round loop, each
assistant-with-calls message is immediately followed by exactly as many
tool-result messages as it has tool calls, in the same order, and the
`tool_call_id` of the k-th tool-result equals the id of the k-th call of
that assistant message (the `wellPaired` automaton accepts the
sequence). -/
theorem turn_sequence_tool_results_paired {Args : Type} (env : Env Args)
    (msgs : List Msg) :
    wellPaired (runTurn env msgs).turn_llm_sequence = true :=
  runLoopAux_turn_sequence_wellPaired env 10 _ rfl

theorem call_tool_raised {Args : Type} (c : MCPClient Args)
    (name : String) (args : Args) (m : String)
    (hs : c.session ≠ none) (hl : c.loop ≠ none)
    (hr : c.remote name args = RemoteOutcome.raised m) :
    c.call_tool name args = Except.ok (json_dumps_error m) := by
  unfold MCPClient.call_tool
  rw [if_neg (by tauto), hr]

/-- Claim C5:  For every tool invocation whose remote execution raises,
`call_tool` does not propagate the exception to its caller: it returns
the string `json.dumps(\x7b"error": "<message>"\x7d)`; the round loop
records exactly that string as the call's tool-result (with the error
flag *clear*, since nothing was raised at the loop's level); and the
control decision of the round — `continue` towards a further model
response — is taken, not an abort of the turn. -/
theorem remote_raise_folded_and_turn_continues {Args : Type}
    (c : MCPClient Args) (transport : List Msg → Except String (List Chunk))
    (jsonLoads : String → Option Args) (emptyArgs : Args)
    (e : Nat × AccTC) (m : String)
    (hs : c.session ≠ none) (hl : c.loop ≠ none)
    (hr : c.remote e.2.name
        (parseArgs ⟨transport, jsonLoads, emptyArgs, c.call_tool⟩ e.2.arguments) =
      RemoteOutcome.raised m)
    (s : LoopState Args) (chunks : List Chunk)
    (hT : transport s.llm_messages = Except.ok chunks)
    (hne : (streamFold chunks).2 ≠ []) :
    c.call_tool e.2.name
        (parseArgs ⟨transport, jsonLoads, emptyArgs, c.call_tool⟩ e.2.arguments) =
      Except.ok (json_dumps_error m) ∧
    runOneCall ⟨transport, jsonLoads, emptyArgs, c.call_tool⟩ e =
      ⟨e.2.id, e.2.name,
        parseArgs ⟨transport, jsonLoads, emptyArgs, c.call_tool⟩ e.2.arguments,
        json_dumps_error m, false⟩ ∧
    (runRound ⟨transport, jsonLoads, emptyArgs, c.call_tool⟩ s).2 = true := by
  have h1 := call_tool_raised c e.2.name
    (parseArgs ⟨transport, jsonLoads, emptyArgs, c.call_tool⟩ e.2.arguments) m hs hl hr
  refine ⟨h1, ?_, ?_⟩
  · unfold runOneCall
    dsimp only
    rw [h1]
  · unfold runRound
    dsimp only
    rw [hT]
    dsimp only
    rw [if_neg (by simp [List.isEmpty_iff, hne])]

/-- Witness for C5: concrete environment whose transport requests one
tool call and whose remote execution raises `"boom"`. -/
theorem remote_raise_folded_witness :
    runOneCall raisingEnv (0, ⟨"call_1", "get_countries", "\x7b\x7d"⟩) =
      ⟨"call_1", "get_countries", (), json_dumps_error "boom", false⟩ ∧
    (runRound raisingEnv (initState Unit [])).2 = true := by
  have h := remote_raise_folded_and_turn_continues raisingClient oneCallTransport
      (fun _ => some ()) () (0, ⟨"call_1", "get_countries", "\x7b\x7d"⟩) "boom"
      (by simp [raisingClient]) (by simp [raisingClient]) rfl
      (initState Unit []) oneCallChunks rfl (by decide)
  exact ⟨h.2.1, h.2.2⟩

theorem applyDelta_arguments (t : AccTC) (d : TCDelta) :
    (t.applyDelta d).arguments = t.arguments ++ d.arguments := by
  unfold AccTC.applyDelta
  dsimp only
  by_cases h1 : d.id ≠ "" <;> by_cases h2 : d.name ≠ "" <;>
    by_cases h3 : d.arguments ≠ "" <;> simp_all

theorem tcsFind_update (acc : TCMap) (j : Nat) (f : AccTC → AccTC) (i : Nat) :
    tcsFind (tcsUpdate acc j f) i =
      if i = j then (tcsFind acc j).map f else tcsFind acc i := by
  induction acc with
  | nil => simp [tcsUpdate, tcsFind]
  | cons e acc ih =>
    obtain ⟨k, t⟩ := e
    simp only [tcsUpdate, tcsFind]
    by_cases hkj : k = j <;> by_cases hki : k = i <;>
      by_cases hij : i = j <;> simp_all [tcsFind]

theorem tcsFind_append (acc : TCMap) (j : Nat) (t : AccTC) (i : Nat) :
    tcsFind (acc ++ [(j, t)]) i =
      match tcsFind acc i with
      | some x => some x
      | none => if j = i then some t else none := by
  induction acc with
  | nil => simp [tcsFind]
  | cons e acc ih =>
    obtain ⟨k, u⟩ := e
    by_cases hki : k = i <;> simp [tcsFind, hki, ih]

theorem tcsFind_applyTCDelta (acc : TCMap) (d : TCDelta) (i : Nat) :
    tcsFind (applyTCDelta acc d) i =
      if i = d.index then
        some (((tcsFind acc d.index).getD AccTC.empty).applyDelta d)
      else tcsFind acc i := by
  unfold applyTCDelta
  dsimp only
  cases hfound : tcsFind acc d.index with
  | none =>
    rw [if_pos (by simp [hfound])]
    rw [tcsFind_update]
    by_cases hi : i = d.index
    · subst hi
      rw [if_pos rfl, if_pos rfl, tcsFind_append, hfound]
      simp
    · rw [if_neg hi, if_neg hi, tcsFind_append]
      cases h2 : tcsFind acc i with
      | none => simp [(show ¬ d.index = i from fun h => hi h.symm)]
      | some x => simp
  | some x =>
    rw [if_neg (by simp [hfound])]
    rw [tcsFind_update]
    by_cases hi : i = d.index
    · subst hi
      rw [if_pos rfl, if_pos rfl, hfound]
      simp
    · rw [if_neg hi, if_neg hi]

theorem foldl_applyTCDelta_buffer (ds : List TCDelta) (acc : TCMap) (i : Nat) :
    (tcsFind (ds.foldl applyTCDelta acc) i).map AccTC.arguments =
      expectedBuffer (tcsFind acc i) (ds.filter (fun d => d.index == i)) := by
  induction ds generalizing acc with
  | nil =>
    cases h : tcsFind acc i <;> simp [expectedBuffer, concatAll, h]
  | cons d ds ih =>
    rw [List.foldl_cons, ih (applyTCDelta acc d)]
    rw [tcsFind_applyTCDelta]
    by_cases hidx : d.index = i
    · subst hidx
      rw [if_pos rfl]
      rw [List.filter_cons_of_pos (by simp)]
      cases hacc : tcsFind acc d.index with
      | none =>
        simp [expectedBuffer, concatAll, applyDelta_arguments, AccTC.empty]
      | some t =>
        simp [expectedBuffer, concatAll, applyDelta_arguments,
          String.append_assoc]
    · rw [if_neg (fun h => hidx (by rw [h]))]
      rw [List.filter_cons_of_neg (by simp [hidx])]

theorem processChunk_snd (st : String × TCMap) (c : Chunk) :
    (processChunk st c).2 = (chunkDeltas c).foldl applyTCDelta st.2 := by
  cases c <;> rfl

theorem foldl_processChunk_snd (chunks : List Chunk) (st : String × TCMap) :
    (chunks.foldl processChunk st).2 =
      (allDeltas chunks).foldl applyTCDelta st.2 := by
  induction chunks generalizing st with
  | nil => rfl
  | cons c chunks ih =>
    rw [List.foldl_cons, ih]
    simp only [allDeltas, List.flatMap_cons, List.foldl_append]
    rw [processChunk_snd]

/-- Claim C6:  For every PendingToolCall, the argument buffer after
streaming equals the concatenation of all argument fragments addressed
to that index, in arrival order (an index no fragment addressed has no
entry at all); consequently a buffer arriving split across several
fragments — the spec's example `\x7b"a":` / `1,"b"` / `:2\x7d` — leaves
the accumulator in exactly the state of the same bytes arriving as one
fragment, so the (post-stream, `app.py` line 541) parse of either is the
same.  Parsing indeed only happens after the stream completes:
`json.loads` is applied in `runOneCall`, which consumes the finalized
accumulator that `streamFold` returns. -/
theorem argument_buffer_is_fragment_concat (chunks : List Chunk) (i : Nat) :
    (tcsFind (streamFold chunks).2 i).map AccTC.arguments =
      expectedBuffer none (deltasFor chunks i) ∧
    (streamFold splitFragmentChunks).2 = (streamFold singleFragmentChunks).2 := by
  constructor
  · unfold streamFold deltasFor
    rw [foldl_processChunk_snd]
    exact foldl_applyTCDelta_buffer (allDeltas chunks) [] i
  · decide

end Pathways
